import Mathlib

/-!
# Biorhythms — verification of the spec against `src/main.rs`

Shallow embedding of the Biorhythm application (`igorp74/Biorhythms`,
`src/main.rs`). Dates are modelled as calendar triples together with a
day-number conversion; machine integers (`i32` day offsets, millisecond
instants) become `Int`; the `f32` wheel delta becomes `ℚ`; the `f64`
sine-based cycle values become real numbers via `Real.sin`.
-/

namespace Biorhythms

/-! ## Calendar dates (model of `chrono::NaiveDate`) -/

/-- A calendar date `(year, month, day)`, model of `chrono::NaiveDate`
as produced by `NaiveDate::parse_from_str(_, "%Y-%m-%d")`. -/
structure NDate where
  year : Int
  month : Nat
  day : Nat
deriving DecidableEq, Repr

/-- Proleptic-Gregorian leap year test. -/
def isLeap (y : Int) : Bool :=
  (y % 4 == 0 && y % 100 != 0) || y % 400 == 0

/-- Days in a month of the proleptic Gregorian calendar. -/
def daysInMonth (y : Int) (m : Nat) : Nat :=
  if m = 2 then (if isLeap y then 29 else 28)
  else if m = 4 ∨ m = 6 ∨ m = 9 ∨ m = 11 then 30
  else 31

/-- Validity of a calendar triple, model of `NaiveDate::from_ymd_opt`
(chrono restricts years to `[-262144, 262143]`). -/
def validDate (d : NDate) : Bool :=
  -262144 ≤ d.year && d.year ≤ 262143 &&
  1 ≤ d.month && d.month ≤ 12 &&
  1 ≤ d.day && d.day ≤ daysInMonth d.year d.month

/-- Day number of a calendar date (days since 1970-01-01, negative before),
the standard civil-from-days conversion; model of the day scale on which
`chrono` date subtraction (`signed_duration_since(..).num_days()`) and
date + `Duration::days` arithmetic operate. -/
def dayNumber (d : NDate) : Int :=
  let y : Int := if d.month ≤ 2 then d.year - 1 else d.year
  let m : Int := if d.month ≤ 2 then (d.month : Int) + 9 else (d.month : Int) - 3
  let era : Int := Int.ediv y 400
  let yoe : Int := y - era * 400
  let doy : Int := Int.ediv (153 * m + 2) 5 + (d.day : Int) - 1
  let doe : Int := yoe * 365 + Int.ediv yoe 4 - Int.ediv yoe 100 + doy
  era * 146097 + doe - 719468

/-! ## Parsing (model of `NaiveDate::parse_from_str(s, "%Y-%m-%d")`)

chrono's numeric parsing for `%Y` consumes an optional sign then 1–4
digits (unbounded digits when a sign is present); `%m` and `%d` consume
1–2 digits; the literal `-` separators must match exactly and the whole
input must be consumed; the triple must then be a valid calendar date. -/

/-- Digits-to-value over an explicit digit list. -/
def digitsVal (ds : List Char) : Nat :=
  ds.foldl (fun acc c => acc * 10 + (c.toNat - 48)) 0

/-- Consume up to `maxw` leading digits greedily (chrono `scan::number`);
fails when the input does not start with a digit. -/
def takeNumber (cs : List Char) (maxw : Nat) : Option (Nat × List Char) :=
  let ds := (cs.takeWhile Char.isDigit).take maxw
  if ds.isEmpty then none
  else some (digitsVal ds, cs.drop ds.length)

/-- Model of `NaiveDate::parse_from_str(s, "%Y-%m-%d")`. -/
def parse_from_str (s : String) : Option NDate :=
  let cs := s.toList
  -- %Y: optional sign; 1–4 digits unsigned, unbounded when a sign is present
  let start : Bool × List Char × Nat :=
    match cs with
    | '-' :: rest => (true, rest, rest.length)
    | '+' :: rest => (false, rest, rest.length)
    | rest => (false, rest, 4)
  match start with
  | (neg, cs1, ywidth) =>
    match takeNumber cs1 ywidth with
    | none => none
    | some (yabs, cs2) =>
      match cs2 with
      | '-' :: cs3 =>
        match takeNumber cs3 2 with
        | none => none
        | some (m, cs4) =>
          match cs4 with
          | '-' :: cs5 =>
            match takeNumber cs5 2 with
            | none => none
            | some (d, cs6) =>
              if cs6 = [] then
                let date : NDate := ⟨if neg then -(yabs : Int) else (yabs : Int), m, d⟩
                if validDate date then some date else none
              else none
          | _ => none
      | _ => none

/-- Zero-pad a numeral to `w` digits. -/
def padNum (w n : Nat) : String :=
  let s := toString n
  String.mk (List.replicate (w - s.length) '0') ++ s

/-- Model of `date.format("%Y-%m-%d")` (year zero-padded to 4 digits,
month and day to 2). -/
def formatYMD (d : NDate) : String :=
  (if d.year < 0 then "-" ++ padNum 4 d.year.natAbs else padNum 4 d.year.toNat)
    ++ "-" ++ padNum 2 d.month ++ "-" ++ padNum 2 d.day

/-! ## Application state and messages (model of `BiorhythmApp` / `Message`) -/

/-- Model of `SavedEntry` (`{ name: String, date: NaiveDate }`,
`PartialEq`/`Eq` derived componentwise). -/
structure SavedEntry where
  name : String
  date : NDate
deriving DecidableEq, Repr

/-- Model of `iced::mouse::ScrollDelta` (the `y` components, `f32` as `ℚ`). -/
inductive ScrollDelta where
  | lines (y : ℚ)
  | pixels (y : ℚ)
deriving DecidableEq, Repr

/-- Model of the `iced::Event` cases the app inspects. -/
inductive AppEvent where
  | mouseWheelScrolled (delta : ScrollDelta)
  | mouseLeftButtonReleased
  | other
deriving DecidableEq, Repr

/-- Model of the `BiorhythmApp` struct. `chart_cache` (a single-slot
`canvas::Cache`) is modelled by the flag `cache_valid`: `true` while a
cached image may be present, set to `false` by `chart_cache.clear()`.
`last_tick : Int` is the `Instant` in milliseconds. -/
structure AppState where
  name_input : String
  date_input : String
  selected_entry : Option SavedEntry
  saved_entries : List SavedEntry
  cache_valid : Bool
  day_offset : Int
  rolling_direction : Option Int
  last_tick : Int
deriving DecidableEq, Repr

/-- Model of the `Message` enum. `Instant` values are milliseconds (`Int`),
`f32` wheel deltas are `ℚ`. -/
inductive Message where
  | nameChanged (n : String)
  | dateChanged (d : String)
  | saveEntry
  | entrySelected (e : SavedEntry)
  | offsetChanged (val : Int)
  | shiftOffset (delta : Int)
  | startRolling (dir : Int)
  | frameTick (now : Int)
  | resetOffset
  | eventOccurred (ev : AppEvent)
  | mouseWheelScrolled (y : ℚ)
  | goToDate (offset : Int)
deriving DecidableEq, Repr

/-- Rust `i32::clamp(lo, hi)`: `lo` if below, `hi` if above, else itself. -/
def rustClamp (x lo hi : Int) : Int :=
  if x < lo then lo else if x > hi then hi else x

/-- Model of Rust `f32::signum` on `ℚ` (`1` for positive and `+0.0`,
`-1` for negative; the IEEE `-0.0` has no `ℚ` counterpart). -/
def qsignum (y : ℚ) : ℚ :=
  if 0 ≤ y then 1 else -1

/-- Model of the `Message::MouseWheelScrolled(y)` arm of
`BiorhythmApp::update` (shared by the direct message and the delegation
from `Message::EventOccurred`). -/
def applyWheel (y : ℚ) (s : AppState) : AppState :=
  let delta : Int := if y > 0 then -1 else 1
  { s with day_offset := rustClamp (s.day_offset + delta) (-45830) 36525,
           cache_valid := false }

/-- Model of `BiorhythmApp::update`. `wallClock` models `Instant::now()`
(read only by the `StartRolling` arm); the file write in `SaveEntry` is
external persistence and has no state effect. -/
def update (wallClock : Int) (s : AppState) : Message → AppState
  | .nameChanged n => { s with name_input := n }
  | .dateChanged d => { s with date_input := d, cache_valid := false }
  | .saveEntry =>
      match parse_from_str s.date_input with
      | some date =>
          let entry : SavedEntry := ⟨s.name_input, date⟩
          if entry ∈ s.saved_entries then s
          else { s with saved_entries := s.saved_entries ++ [entry] }
      | none => s
  | .entrySelected e =>
      { s with date_input := formatYMD e.date,
               name_input := e.name,
               selected_entry := some e,
               cache_valid := false }
  | .offsetChanged val => { s with day_offset := val, cache_valid := false }
  | .shiftOffset delta =>
      { s with day_offset := rustClamp (s.day_offset + delta) (-45830) 36525,
               cache_valid := false }
  | .startRolling dir => { s with rolling_direction := some dir, last_tick := wallClock }
  | .frameTick now =>
      match s.rolling_direction with
      | some dir =>
          if 60 ≤ now - s.last_tick then
            { s with day_offset := rustClamp (s.day_offset + dir) (-45830) 36525,
                     cache_valid := false,
                     last_tick := now }
          else s
      | none => s
  | .resetOffset => { s with day_offset := 0, cache_valid := false }
  | .mouseWheelScrolled y => applyWheel y s
  | .goToDate offset => { s with day_offset := offset, cache_valid := false }
  | .eventOccurred ev =>
      match ev with
      | .mouseWheelScrolled delta =>
          let y := match delta with
            | .lines y => y
            | .pixels y => qsignum y
          applyWheel y s
      | .mouseLeftButtonReleased => { s with rolling_direction := none }
      | .other => s

/-! ## Waveform model (the `f64` sine computations, over `ℝ`)

The source computes `((2.0 * PI * days) / period).sin()` in `f64`
(`build_analysis_sidebar`, `draw_bars`, `draw_plot`); the embedding uses
exact reals. -/

/-- `sin(2π · d / period)` — the cycle value at elapsed-day count `d`
(`build_analysis_sidebar` lines 210–211, `draw_plot` line 345). -/
noncomputable def cycleValue (period d : ℝ) : ℝ :=
  Real.sin (2 * Real.pi * d / period)

/-- The per-day crossing test of `build_analysis_sidebar` line 213:
`(val_now >= 0.0 && val_prev < 0.0) || (val_now <= 0.0 && val_prev > 0.0)`. -/
def isCrossing (period d : ℝ) : Prop :=
  (cycleValue period d ≥ 0 ∧ cycleValue period (d - 1) < 0) ∨
  (cycleValue period d ≤ 0 ∧ cycleValue period (d - 1) > 0)

/-- Mean of the three cycle values (`draw_bars`: `(p + e + intel) / 3.0`). -/
noncomputable def compositeTrend (d : ℝ) : ℝ :=
  (cycleValue 23 d + cycleValue 28 d + cycleValue 33 d) / 3

/-- The fixed cycle table `[(23.0, "P"), (28.0, "E"), (33.0, "I")]`. -/
def cycles : List (ℝ × String) := [(23, "P"), (28, "E"), (33, "I")]

/-- Elapsed days from the reference date `b` to the date with day number
`n`: `date.signed_duration_since(birthday).num_days() as f64`. -/
def daysSince (b : NDate) (n : Int) : ℝ :=
  ((n - dayNumber b : Int) : ℝ)

open Classical in
/-- The labels of the cycles crossing zero at elapsed-day count `d`
(the inner loop of `build_analysis_sidebar`, lines 209–216). -/
noncomputable def activeCrit (d : ℝ) : List String :=
  (cycles.filter (fun c => decide (isCrossing c.1 d))).map Prod.snd

/-- The scanned offset window `(day_offset - 5)..(day_offset + 25)`
in iteration order. -/
def offsetWindow (o : Int) : List Int :=
  (List.range 30).map (fun k : Nat => o - 5 + (k : Int))

/-- Model of `build_analysis_sidebar` (lines 200–221): the `items` list of
`(offset, date, crossing labels)` triples; empty when the date input does
not parse. `today` is the wall-clock date as a day number. -/
noncomputable def sidebarItems (date_input : String) (today day_offset : Int) :
    List (Int × Int × List String) :=
  match parse_from_str date_input with
  | none => []
  | some birthday =>
      (offsetWindow day_offset).filterMap (fun i =>
        let date := today + i
        let crit := activeCrit (daysSince birthday date)
        if crit.isEmpty then none else some (i, date, crit))

/-- The data computed inside the chart draw closure (`canvas::Program::draw`
together with `draw_bars`): the target date, window start, elapsed days at
the window start, and the 30 composite-trend bar values. Geometry and
styling are presentation and are not modelled. -/
structure ChartData where
  target_date : Int
  view_start : Int
  days_at_start : ℝ
  bars : List ℝ

/-- Model of the chart content produced by `canvas::Program::draw`
(lines 260–312): `none` exactly when the date input does not parse, in
which case the closure draws nothing. -/
noncomputable def chartContent (date_input : String) (today day_offset : Int) :
    Option ChartData :=
  match parse_from_str date_input with
  | none => none
  | some birthday =>
      let target_date := today + day_offset
      let view_start := target_date - 15
      let days_at_start := daysSince birthday view_start
      some { target_date := target_date
             view_start := view_start
             days_at_start := days_at_start
             bars := (List.range 30).map
               (fun i => compositeTrend (days_at_start + (i : ℝ))) }

/-! ## Auxiliary definitions for the claims -/

/-- The documented offset bounds `[-45830, 36525]`. -/
def offsetInRange (x : Int) : Prop :=
  -45830 ≤ x ∧ x ≤ 36525

/-- Fold a message list through `update` (one fixed wall clock). -/
def runMessages (wallClock : Int) (s : AppState) (msgs : List Message) : AppState :=
  msgs.foldl (update wallClock) s

/-- Fold a list of frame-tick timestamps through `update`. -/
def runTicks (s : AppState) (ticks : List Int) : AppState :=
  ticks.foldl (fun st t => update 0 st (.frameTick t)) s

/-- Payload condition for the amended offset invariant: the slider
(`OffsetChanged`) and sidebar-jump (`GoToDate`) handlers store their
payload unclamped, so the invariant needs those payloads in range. -/
def payloadInRange : Message → Prop
  | .offsetChanged val => offsetInRange val
  | .goToDate offset => offsetInRange offset
  | _ => True

/-- A concrete state used by counterexamples and witnesses. -/
def someState : AppState :=
  { name_input := ""
    date_input := "2000-01-01"
    selected_entry := none
    saved_entries := []
    cache_valid := true
    day_offset := 0
    rolling_direction := none
    last_tick := 0 }

/-- `someState`, put in the Rolling(+1) state with `last_tick = 0`. -/
def rollingState : AppState :=
  { someState with rolling_direction := some 1 }

/-! ## Helper lemmas -/

theorem rustClamp_inRange (x : Int) : offsetInRange (rustClamp x (-45830) 36525) := by
  simp only [rustClamp, offsetInRange]
  split_ifs <;> omega

theorem rustClamp_succ_step (x : Int) (hx : offsetInRange x) :
    x ≤ rustClamp (x + 1) (-45830) 36525 ∧
    rustClamp (x + 1) (-45830) 36525 ≤ x + 1 ∧
    offsetInRange (rustClamp (x + 1) (-45830) 36525) := by
  simp only [rustClamp, offsetInRange] at *
  split_ifs <;> omega

theorem update_offset_inRange (wc : Int) (s : AppState) (m : Message)
    (hs : offsetInRange s.day_offset) (hm : payloadInRange m) :
    offsetInRange (update wc s m).day_offset := by
  cases m with
  | nameChanged n => simpa [update] using hs
  | dateChanged d => simpa [update] using hs
  | saveEntry =>
      simp only [update]
      cases hp : parse_from_str s.date_input with
      | none => simpa using hs
      | some d =>
          dsimp only
          split <;> simpa using hs
  | entrySelected e => simpa [update] using hs
  | offsetChanged val => simpa [update, payloadInRange] using hm
  | shiftOffset delta => simpa [update] using rustClamp_inRange _
  | startRolling dir => simpa [update] using hs
  | frameTick now =>
      simp only [update]
      cases hd : s.rolling_direction with
      | none => simpa using hs
      | some dir =>
          dsimp only
          split
          · simpa using rustClamp_inRange _
          · simpa using hs
  | resetOffset =>
      simp only [update, offsetInRange]
      omega
  | eventOccurred ev =>
      cases ev with
      | mouseWheelScrolled delta =>
          simpa [update, applyWheel] using rustClamp_inRange _
      | mouseLeftButtonReleased => simpa [update] using hs
      | other => simpa [update] using hs
  | mouseWheelScrolled y => simpa [update, applyWheel] using rustClamp_inRange _
  | goToDate off => simpa [update, payloadInRange] using hm

/-! ## Claims -/

/-- Claim C1, counterexample: the slider's set-absolute handler
(`Message::OffsetChanged`, line 76) commits its payload without clamping,
so a single `OffsetChanged 100000` drives the offset out of
`[-45830, 36525]`. -/
theorem C1_counterexample :
    (update 0 someState (Message.offsetChanged 100000)).day_offset = 100000 ∧
    ¬ offsetInRange (update 0 someState (Message.offsetChanged 100000)).day_offset := by
  constructor
  · rfl
  · simp only [update, offsetInRange, someState]
    omega

/-- Claim C1 (amended): the week-step, wheel, rolling-tick and reset paths
clamp the offset into `[-45830, 36525]`, but the slider set-absolute
(`OffsetChanged`) and sidebar jump (`GoToDate`) handlers store their
payload unclamped; starting from an in-range offset, the offset stays in
range for exactly those message sequences whose `OffsetChanged`/`GoToDate`
payloads are themselves in range. -/
theorem C1_offset_invariant (wc : Int) (s : AppState) (msgs : List Message)
    (hs : offsetInRange s.day_offset) (hmsgs : ∀ m ∈ msgs, payloadInRange m) :
    offsetInRange (runMessages wc s msgs).day_offset := by
  induction msgs generalizing s with
  | nil => simpa [runMessages] using hs
  | cons m rest ih =>
      have h1 : offsetInRange (update wc s m).day_offset :=
        update_offset_inRange wc s m hs (hmsgs m (by simp))
      have h2 : ∀ m' ∈ rest, payloadInRange m' := fun m' hm' => hmsgs m' (by simp [hm'])
      simpa [runMessages] using ih (update wc s m) h1 h2

/-- Claim C1 witness: a concrete mixed mutation sequence keeps the offset
in range. -/
theorem C1_offset_invariant_witness :
    offsetInRange (runMessages 0 someState
      [Message.shiftOffset 7, Message.offsetChanged 36525, Message.goToDate (-45830),
       Message.mouseWheelScrolled 1, Message.resetOffset]).day_offset := by
  apply C1_offset_invariant
  · refine ⟨?_, ?_⟩ <;> norm_num [someState]
  · intro m hm
    fin_cases hm <;> norm_num [payloadInRange, offsetInRange]

/-- Claim C4: a wheel event with a positive-sign delta (directly, as a
lines delta, or as a pixels delta) moves the offset by exactly `-1`; a
negative-sign delta moves it by `+1`; in both cases the result is clamped
into `[-45830, 36525]` with no wraparound. -/
theorem C4_wheel_step (wc : Int) (s : AppState) (y : ℚ) :
    (0 < y →
      (update wc s (.mouseWheelScrolled y)).day_offset
          = rustClamp (s.day_offset - 1) (-45830) 36525 ∧
      (update wc s (.eventOccurred (.mouseWheelScrolled (.lines y)))).day_offset
          = rustClamp (s.day_offset - 1) (-45830) 36525 ∧
      (update wc s (.eventOccurred (.mouseWheelScrolled (.pixels y)))).day_offset
          = rustClamp (s.day_offset - 1) (-45830) 36525) ∧
    (y < 0 →
      (update wc s (.mouseWheelScrolled y)).day_offset
          = rustClamp (s.day_offset + 1) (-45830) 36525 ∧
      (update wc s (.eventOccurred (.mouseWheelScrolled (.lines y)))).day_offset
          = rustClamp (s.day_offset + 1) (-45830) 36525 ∧
      (update wc s (.eventOccurred (.mouseWheelScrolled (.pixels y)))).day_offset
          = rustClamp (s.day_offset + 1) (-45830) 36525) ∧
    offsetInRange (update wc s (.mouseWheelScrolled y)).day_offset := by
  refine ⟨fun hy => ?_, fun hy => ?_, ?_⟩
  · have hsig : (0 : ℚ) ≤ y := le_of_lt hy
    refine ⟨?_, ?_, ?_⟩ <;>
      simp [update, applyWheel, qsignum, hy, hsig, sub_eq_add_neg]
  · have hy1 : ¬ (0 : ℚ) < y := not_lt.mpr (le_of_lt hy)
    have hsig : ¬ (0 : ℚ) ≤ y := not_le.mpr hy
    have hneg : ¬ ((-1 : ℚ) > 0) := by norm_num
    refine ⟨?_, ?_, ?_⟩ <;>
      simp [update, applyWheel, qsignum, hy1, hsig, hneg]
  · simpa [update, applyWheel] using rustClamp_inRange _

/-- Claim C4 witness: a positive wheel delta on a concrete state. -/
theorem C4_wheel_step_witness :
    (update 0 someState (.mouseWheelScrolled 1)).day_offset
      = rustClamp (someState.day_offset - 1) (-45830) 36525 :=
  ((C4_wheel_step 0 someState 1).1 (by norm_num)).1

/-- Claim C6: every message whose processing changes `day_offset` or
`date_input` clears the chart cache in the same `update` step (messages
that leave both unchanged may keep the cache). -/
theorem C6_cache_invalidated (wc : Int) (s : AppState) (m : Message)
    (h : (update wc s m).day_offset ≠ s.day_offset ∨
         (update wc s m).date_input ≠ s.date_input) :
    (update wc s m).cache_valid = false := by
  cases m with
  | nameChanged n => simp [update] at h
  | dateChanged d => simp [update]
  | saveEntry =>
      simp only [update] at h ⊢
      cases hp : parse_from_str s.date_input with
      | none => simp [hp] at h
      | some d =>
          simp only [hp] at h ⊢
          split at h <;> simp_all
  | entrySelected e => simp [update]
  | offsetChanged val => simp [update]
  | shiftOffset delta => simp [update]
  | startRolling dir => simp [update] at h
  | frameTick now =>
      simp only [update] at h ⊢
      cases hd : s.rolling_direction with
      | none => simp [hd] at h
      | some dir =>
          simp only [hd] at h ⊢
          split at h <;> simp_all
  | resetOffset => simp [update]
  | eventOccurred ev =>
      cases ev with
      | mouseWheelScrolled delta => simp [update, applyWheel]
      | mouseLeftButtonReleased => simp [update] at h
      | other => simp [update] at h
  | mouseWheelScrolled y => simp [update, applyWheel]
  | goToDate off => simp [update]

/-- Claim C6 witness: editing the date text on a concrete state clears
the cache. -/
theorem C6_cache_invalidated_witness :
    (update 0 someState (.dateChanged "x")).cache_valid = false :=
  C6_cache_invalidated 0 someState (.dateChanged "x") (Or.inr (by decide))

/-- Claim C7: saving with a parseable date appends the `(name, date)` pair
to the saved-profile list exactly when it is not already present (by exact
componentwise equality), and leaves the list unchanged otherwise. -/
theorem C7_save_entry (wc : Int) (s : AppState) (d : NDate)
    (hp : parse_from_str s.date_input = some d) :
    (update wc s .saveEntry).saved_entries =
      (if (⟨s.name_input, d⟩ : SavedEntry) ∈ s.saved_entries then s.saved_entries
       else s.saved_entries ++ [⟨s.name_input, d⟩]) := by
  by_cases hmem : (⟨s.name_input, d⟩ : SavedEntry) ∈ s.saved_entries <;>
    simp [update, hp, hmem]

/-- Claim C7 witness: saving twice on a concrete state leaves one copy. -/
theorem C7_save_entry_witness :
    (update 0 someState .saveEntry).saved_entries =
      (if (⟨"", ⟨2000, 1, 1⟩⟩ : SavedEntry) ∈ someState.saved_entries
       then someState.saved_entries
       else someState.saved_entries ++ [⟨"", ⟨2000, 1, 1⟩⟩]) :=
  C7_save_entry 0 someState ⟨2000, 1, 1⟩ rfl

/-- Claim C8: when the date input does not parse as `%Y-%m-%d`, the
critical-day sidebar produces no items and the chart draw closure
produces no content; both are total (no error) and read-only. -/
theorem C8_unparseable_skips (s : String) (today off : Int)
    (hp : parse_from_str s = none) :
    sidebarItems s today off = [] ∧ chartContent s today off = none := by
  constructor <;> simp [sidebarItems, chartContent, hp]

/-- Claim C8 witness: a concrete unparseable input yields no content. -/
theorem C8_unparseable_skips_witness :
    sidebarItems "not-a-date" 0 0 = [] ∧ chartContent "not-a-date" 0 0 = none :=
  C8_unparseable_skips "not-a-date" 0 0 rfl

theorem offsetWindow_mem (o i : Int) : i ∈ offsetWindow o ↔ o - 5 ≤ i ∧ i < o + 25 := by
  simp only [offsetWindow, List.mem_map, List.mem_range]
  constructor
  · rintro ⟨k, hk, rfl⟩
    omega
  · rintro ⟨h1, h2⟩
    exact ⟨(i - (o - 5)).toNat, by omega, by omega⟩

theorem offsetWindow_sorted (o : Int) : (offsetWindow o).Pairwise (· < ·) := by
  exact (List.pairwise_lt_range 30).map _ (fun a b h => by omega)

theorem map_fst_filterMap_sublist {β : Type} (l : List Int)
    (f : Int → Option (Int × β)) (hf : ∀ a x, f a = some x → x.1 = a) :
    List.Sublist ((l.filterMap f).map Prod.fst) l := by
  induction l with
  | nil => simp
  | cons a t ih =>
      rw [List.filterMap_cons]
      cases hfa : f a with
      | none => exact (ih).cons a
      | some x =>
          rw [List.map_cons]
          rw [hf a x hfa]
          exact (ih).cons₂ a

theorem activeCrit_ne_nil (x : ℝ) :
    activeCrit x ≠ [] ↔ (isCrossing 23 x ∨ isCrossing 28 x ∨ isCrossing 33 x) := by
  by_cases h23 : isCrossing 23 x <;> by_cases h28 : isCrossing 28 x <;>
    by_cases h33 : isCrossing 33 x <;>
    simp [activeCrit, cycles, List.filter_cons, h23, h28, h33]

theorem cycleValue_at_zero (P : ℝ) : cycleValue P 0 = 0 := by
  simp [cycleValue]

theorem cycleValue_23_one_pos : 0 < cycleValue 23 1 := by
  unfold cycleValue
  apply Real.sin_pos_of_pos_of_lt_pi
  · positivity
  · rw [div_lt_iff₀ (by norm_num)]
    nlinarith [Real.pi_pos]

theorem cycleValue_23_negone_neg : cycleValue 23 (-1) < 0 := by
  have h : 2 * Real.pi * (-1 : ℝ) / 23 = -(2 * Real.pi * 1 / 23) := by ring
  unfold cycleValue
  rw [h, Real.sin_neg, neg_lt_zero]
  have := cycleValue_23_one_pos
  unfold cycleValue at this
  exact this

/-- Claim C9: each cycle value `sin(2π·d/P)` lies in `[-1, 1]`, and for
the periods 23, 28 and 33 it is periodic with period `P` (exactly, in the
real-number model of the `f64` computation). -/
theorem C9_cycle_bounded_periodic (P : ℝ) (hP : P = 23 ∨ P = 28 ∨ P = 33) (d : ℝ) :
    -1 ≤ cycleValue P d ∧ cycleValue P d ≤ 1 ∧
    cycleValue P (d + P) = cycleValue P d := by
  have hP0 : P ≠ 0 := by rcases hP with h | h | h <;> rw [h] <;> norm_num
  refine ⟨Real.neg_one_le_sin _, Real.sin_le_one _, ?_⟩
  unfold cycleValue
  have harg : 2 * Real.pi * (d + P) / P = 2 * Real.pi * d / P + 2 * Real.pi := by
    field_simp
    ring
  rw [harg, Real.sin_add_two_pi]

/-- Claim C9 witness: the physical cycle at day 0. -/
theorem C9_cycle_bounded_periodic_witness :
    -1 ≤ cycleValue 23 0 ∧ cycleValue 23 0 ≤ 1 ∧
    cycleValue 23 (0 + 23) = cycleValue 23 0 :=
  C9_cycle_bounded_periodic 23 (Or.inl rfl) 0

/-- Claim C2, counterexample: at period 23 and elapsed day 1 the previous
value is exactly 0 and the current value is strictly positive, yet the
test reports no crossing — refuting the clause that a step from exactly 0
to positive counts as a crossing. -/
theorem C2_counterexample :
    cycleValue 23 (1 - 1) = 0 ∧ 0 < cycleValue 23 1 ∧ ¬ isCrossing 23 1 := by
  have h0 : cycleValue 23 (1 - 1 : ℝ) = 0 := by
    norm_num [cycleValue]
  refine ⟨h0, cycleValue_23_one_pos, ?_⟩
  unfold isCrossing
  rintro (⟨_, hlt⟩ | ⟨hle, _⟩)
  · rw [h0] at hlt
    exact lt_irrefl 0 hlt
  · exact absurd cycleValue_23_one_pos (not_lt.mpr hle)

/-- Claim C2 (amended): the per-day crossing test returns true exactly
when `(value(d) ≥ 0 ∧ value(d-1) < 0) ∨ (value(d) ≤ 0 ∧ value(d-1) > 0)`;
a current value of exactly 0 counts as a crossing when the previous value
is strictly negative (or strictly positive), but a previous value of
exactly 0 followed by a positive current value does not count. -/
theorem C2_crossing_rule (P d : ℝ) :
    (isCrossing P d ↔
      ((0 ≤ cycleValue P d ∧ cycleValue P (d - 1) < 0) ∨
       (cycleValue P d ≤ 0 ∧ 0 < cycleValue P (d - 1)))) ∧
    (cycleValue P d = 0 → cycleValue P (d - 1) < 0 → isCrossing P d) ∧
    (cycleValue P d = 0 → 0 < cycleValue P (d - 1) → isCrossing P d) ∧
    (cycleValue P (d - 1) = 0 → 0 < cycleValue P d → ¬ isCrossing P d) := by
  refine ⟨Iff.rfl, ?_, ?_, ?_⟩
  · intro h0 hprev
    exact Or.inl ⟨le_of_eq h0.symm, hprev⟩
  · intro h0 hprev
    exact Or.inr ⟨le_of_eq h0, hprev⟩
  · rintro hprev hnow (⟨_, hlt⟩ | ⟨hle, _⟩)
    · rw [hprev] at hlt
      exact lt_irrefl 0 hlt
    · exact absurd hnow (not_lt.mpr hle)

/-- Claim C2 witness: a crossing at day 0 (value exactly 0, previous value
negative) and no crossing at day 1 (previous value exactly 0, current
positive), period 23. -/
theorem C2_crossing_rule_witness :
    isCrossing 23 0 ∧ ¬ isCrossing 23 1 := by
  constructor
  · apply (C2_crossing_rule 23 0).2.1 (cycleValue_at_zero 23)
    rw [show (0 : ℝ) - 1 = -1 by norm_num]
    exact cycleValue_23_negone_neg
  · apply (C2_crossing_rule 23 1).2.2.2 _ cycleValue_23_one_pos
    rw [show (1 : ℝ) - 1 = 0 by norm_num]
    exact cycleValue_at_zero 23

/-- Claim C3: for a parseable reference date, the critical-day sidebar
lists exactly the offsets `i` in `[o-5, o+25)` at which at least one of
the three cycles crosses zero (per the crossing rule), with the entry's
date equal to `today + i` and its labels the crossing cycles, ordered by
offset ascending. -/
theorem C3_sidebar_window (dinput : String) (b : NDate) (today o : Int)
    (hp : parse_from_str dinput = some b) :
    (∀ i date crit, (i, date, crit) ∈ sidebarItems dinput today o ↔
        (o - 5 ≤ i ∧ i < o + 25 ∧ date = today + i ∧
         crit = activeCrit (daysSince b (today + i)) ∧
         (isCrossing 23 (daysSince b (today + i)) ∨
          isCrossing 28 (daysSince b (today + i)) ∨
          isCrossing 33 (daysSince b (today + i))))) ∧
    ((sidebarItems dinput today o).map Prod.fst).Pairwise (· < ·) := by
  have hside : sidebarItems dinput today o =
      (offsetWindow o).filterMap (fun i =>
        let date := today + i
        let crit := activeCrit (daysSince b date)
        if crit.isEmpty then none else some (i, date, crit)) := by
    simp [sidebarItems, hp]
  constructor
  · intro i date crit
    rw [hside, List.mem_filterMap]
    constructor
    · rintro ⟨a, ha, hfa⟩
      rw [offsetWindow_mem] at ha
      dsimp only at hfa
      by_cases hc : (activeCrit (daysSince b (today + a))).isEmpty
      · rw [if_pos hc] at hfa
        exact absurd hfa (by simp)
      · rw [if_neg hc] at hfa
        simp only [Option.some.injEq, Prod.mk.injEq] at hfa
        obtain ⟨rfl, rfl, rfl⟩ := hfa
        refine ⟨ha.1, ha.2, rfl, rfl, ?_⟩
        rw [← activeCrit_ne_nil]
        simpa using hc
    · rintro ⟨h1, h2, rfl, rfl, hcr⟩
      refine ⟨i, (offsetWindow_mem o i).mpr ⟨h1, h2⟩, ?_⟩
      dsimp only
      rw [if_neg]
      simpa using (activeCrit_ne_nil (daysSince b (today + i))).mpr hcr
  · rw [hside]
    refine List.Pairwise.sublist ?_ (offsetWindow_sorted o)
    apply map_fst_filterMap_sublist
    intro a x h
    dsimp only at h
    split at h
    · exact absurd h (by simp)
    · simp only [Option.some.injEq] at h
      rw [← h]

/-- Claim C3 witness: the spec scenario, reference date 2000-01-01,
"today" fixed at 2000-02-10 (day number 10997), offset 0: the produced
offsets are sorted ascending. -/
theorem C3_sidebar_window_witness :
    ((sidebarItems "2000-01-01" 10997 0).map Prod.fst).Pairwise (· < ·) :=
  (C3_sidebar_window "2000-01-01" ⟨2000, 1, 1⟩ 10997 0 rfl).2

theorem runTicks_cons (s : AppState) (t : Int) (ts : List Int) :
    runTicks s (t :: ts) = runTicks (update 0 s (.frameTick t)) ts := rfl

theorem runTicks_bound (ticks : List Int) (s : AppState) (T : Int)
    (hdir : s.rolling_direction = some 1) (hoff : offsetInRange s.day_offset)
    (hTl : s.last_tick ≤ T) (hticks : ∀ t ∈ ticks, t ≤ T) :
    (runTicks s ticks).rolling_direction = some 1 ∧
    offsetInRange (runTicks s ticks).day_offset ∧
    s.day_offset ≤ (runTicks s ticks).day_offset ∧
    s.last_tick ≤ (runTicks s ticks).last_tick ∧
    (runTicks s ticks).last_tick ≤ T ∧
    60 * ((runTicks s ticks).day_offset - s.day_offset) ≤
      (runTicks s ticks).last_tick - s.last_tick := by
  induction ticks generalizing s with
  | nil =>
      simp only [runTicks, List.foldl_nil]
      exact ⟨hdir, hoff, le_refl _, le_refl _, hTl, by omega⟩
  | cons t ts ih =>
      rw [runTicks_cons]
      have ht : t ≤ T := hticks t (by simp)
      have hts : ∀ u ∈ ts, u ≤ T := fun u hu => hticks u (by simp [hu])
      by_cases hgate : 60 ≤ t - s.last_tick
      · have hs1 : update 0 s (.frameTick t) =
            { s with day_offset := rustClamp (s.day_offset + 1) (-45830) 36525,
                     cache_valid := false, last_tick := t } := by
          simp [update, hdir, hgate]
        have hstep := rustClamp_succ_step s.day_offset hoff
        have hd1 : (update 0 s (.frameTick t)).rolling_direction = some 1 := by
          rw [hs1]; exact hdir
        have ho1 : offsetInRange (update 0 s (.frameTick t)).day_offset := by
          rw [hs1]; exact hstep.2.2
        have hoff1 : (update 0 s (.frameTick t)).day_offset
            = rustClamp (s.day_offset + 1) (-45830) 36525 := by rw [hs1]
        have hlt1 : (update 0 s (.frameTick t)).last_tick = t := by rw [hs1]
        have hTl1 : (update 0 s (.frameTick t)).last_tick ≤ T := by omega
        obtain ⟨ih1, ih2, ih3, ih4, ih5, ih6⟩ :=
          ih (update 0 s (.frameTick t)) hd1 ho1 hTl1 hts
        refine ⟨ih1, ih2, by omega, by omega, ih5, by omega⟩
      · have hs1 : update 0 s (.frameTick t) = s := by
          have h : ¬ 60 ≤ t - s.last_tick := hgate
          simp [update, hdir, h]
        rw [hs1]
        exact ih s hdir hoff hTl hts

/-- Claim C5 counterexample: rolling with direction +1, ticks arriving
every 70 ms for one second apply 14 steps, not
`floor(1*1000/60) = 16` — the step count depends on the tick rate. -/
theorem C5_counterexample :
    rollingState.rolling_direction = some 1 ∧
    (∀ t ∈ (List.range 14).map (fun k : Nat => 70 * ((k : Int) + 1)),
        t ≤ rollingState.last_tick + 1000 * 1) ∧
    (runTicks rollingState
        ((List.range 14).map (fun k : Nat => 70 * ((k : Int) + 1)))).day_offset
      - rollingState.day_offset = 14 ∧
    (14 : Int) ≠ 1000 * 1 / 60 := by
  refine ⟨rfl, by decide, by decide, by decide⟩

/-- Claim C5 (amended): while Rolling, a frame tick applies one unit of
the direction (clamped) and resets the last-tick timestamp iff at least
60 ms have elapsed since the last tick; a tick before 60 ms, or while
Idle, leaves the state unchanged. Consequently each applied step consumes
at least 60 ms of tick time, so rolling with direction +1 whose tick
timestamps all lie within `last_tick + 1000·N` increases the offset by at
most `floor(N*1000/60)` steps; the exact count depends on tick arrival
times. -/
theorem C5_rolling_throttle (s : AppState) (now dir N : Int) (ticks : List Int) :
    (s.rolling_direction = some dir → 60 ≤ now - s.last_tick →
      update 0 s (.frameTick now) =
        { s with day_offset := rustClamp (s.day_offset + dir) (-45830) 36525,
                 cache_valid := false, last_tick := now }) ∧
    (s.rolling_direction = some dir → now - s.last_tick < 60 →
      update 0 s (.frameTick now) = s) ∧
    (s.rolling_direction = none → update 0 s (.frameTick now) = s) ∧
    (s.rolling_direction = some 1 → offsetInRange s.day_offset → 0 ≤ N →
      (∀ t ∈ ticks, t ≤ s.last_tick + 1000 * N) →
      (runTicks s ticks).day_offset - s.day_offset ≤ 1000 * N / 60) := by
  refine ⟨fun hdir hgate => by simp [update, hdir, hgate],
          fun hdir hgate => ?_,
          fun hdir => by simp [update, hdir],
          fun hdir hoff hN hticks => ?_⟩
  · have h : ¬ 60 ≤ now - s.last_tick := by omega
    simp [update, hdir, h]
  · have hTl : s.last_tick ≤ s.last_tick + 1000 * N := by omega
    obtain ⟨_, _, h3, h4, h5, h6⟩ :=
      runTicks_bound ticks s (s.last_tick + 1000 * N) hdir hoff hTl hticks
    omega

/-- Claim C5 witness: a tick 100 ms after entering Rolling applies one
step and resets the timestamp. -/
theorem C5_rolling_throttle_witness :
    update 0 rollingState (.frameTick 100) =
      { rollingState with
          day_offset := rustClamp (rollingState.day_offset + 1) (-45830) 36525,
          cache_valid := false, last_tick := 100 } :=
  (C5_rolling_throttle rollingState 100 1 0 []).1 rfl (by decide)

/-- Claim C10: a `Lines` wheel delta of exactly `0.0` falls into the
`else` branch of the sign test and moves the offset by `+1` (clamped),
exactly like a negative delta. -/
theorem C10_lines_zero_wheel (wc : Int) (s : AppState) :
    update wc s (.eventOccurred (.mouseWheelScrolled (.lines 0))) =
      { s with day_offset := rustClamp (s.day_offset + 1) (-45830) 36525,
               cache_valid := false } := by
  simp [update, applyWheel]

end Biorhythms
